import Mathlib

/-!
Shallow embedding of `src/golden_wind.py`, a single-file bot that receives a
PDF over a messaging channel from one authorized user, applies literal
find/redact/insert substitution rules to the first page, and sends the result
back.

Modelling conventions:
- Python `None`-able values are `Option`; Python truthiness of strings
  (`not text` is true for both `None` and `""`) is the `falsy` predicate.
- Exceptions are `Except`: file/parse failures surface as
  `AppError.configurationUnavailable`, page-selection failures as
  `AppError.pageSelectionFailed` (the spec's error taxonomy).
- The PyMuPDF (`fitz`) document is a list of pages; a page's rendered text
  layer is a list of text spans, each with a bounding rectangle in page
  coordinates.  Per the library's convention the page origin is the top-left
  corner and y grows downward, so for a rectangle `(x0, y0, x1, y1)` the
  point `(x0, y0)` is its top-left and `(x0, y1)` its bottom-left corner.
  Coordinates are modelled over `Int`; every claim settled here depends only
  on which corner of a rectangle is chosen, never on real-valued geometry.
- `Page.search_for` is modelled at span granularity: it returns, in page
  order, the rectangles of the spans whose text contains the needle as a
  substring.  The real function computes per-occurrence glyph rectangles;
  no claim settled here depends on sub-span geometry.
- Applying a redaction removes every span whose rectangle intersects the
  redaction rectangle; inserting text appends a span whose rectangle is
  derived from the insertion point by a simple fixed-width glyph metric
  (real font metrics are irrelevant to every claim settled here).
- Side effects of the message handler (download, process, reply) are
  recorded as a trace of steps rather than performed.
-/

namespace GoldenWind

/-- A point in page coordinates (`fitz.Point`). -/
structure Point where
  x : Int
  y : Int
deriving DecidableEq, Repr

/-- A rectangle in page coordinates (`fitz.Rect`): `(x0, y0)` and `(x1, y1)`
are diagonally opposite corners, with `(x0, y0)` the top-left one in the
library's top-left-origin, y-downward convention. -/
structure Rect where
  x0 : Int
  y0 : Int
  x1 : Int
  y1 : Int
deriving DecidableEq, Repr

/-- Top-left corner of a rectangle: `(x0, y0)`. -/
def Rect.topLeft (r : Rect) : Point := ⟨r.x0, r.y0⟩

/-- Bottom-left corner of a rectangle: `(x0, y1)`. -/
def Rect.bottomLeft (r : Rect) : Point := ⟨r.x0, r.y1⟩

/-- Whether two rectangles overlap in both axes. -/
def Rect.intersects (a b : Rect) : Bool :=
  decide (a.x0 < b.x1) && decide (b.x0 < a.x1) &&
  decide (a.y0 < b.y1) && decide (b.y0 < a.y1)

/-- Whether the needle character list occurs at the head of the haystack. -/
def matchesAt : List Char → List Char → Bool
  | [], _ => true
  | _ :: _, [] => false
  | c :: cs, d :: ds => c == d && matchesAt cs ds

/-- Whether the needle character list occurs anywhere in the haystack. -/
def hasOccur : List Char → List Char → Bool
  | ns, [] => ns.isEmpty
  | ns, d :: ds => matchesAt ns (d :: ds) || hasOccur ns ds

/-- Whether `needle` occurs as a contiguous substring of `hay`. -/
def containsSubstr (needle hay : String) : Bool :=
  hasOccur needle.toList hay.toList

/-- Model of Python `str.endswith` for a literal suffix: `s` ends with
`suffix` iff the reversed suffix matches the head of the reversed string. -/
def endswith (s suffix : String) : Bool :=
  matchesAt suffix.toList.reverse s.toList.reverse

/-- Accumulate decimal digits left to right; any non-digit character makes
the parse fail. -/
def parseDigits (cs : List Char) : Option Nat :=
  cs.foldl (fun acc c =>
    match acc with
    | some n => if c.isDigit then some (10 * n + (c.toNat - 48)) else none
    | none => none) (some 0)

/-- Model of the Python built-in `int(...)` on a string: an optional minus
sign followed by at least one decimal digit; anything else raises
`ValueError`, modelled as `none`. -/
def pyInt (s : String) : Option Int :=
  match s.toList with
  | [] => none
  | '-' :: cs => if cs = [] then none else (parseDigits cs).map (fun n => -(n : Int))
  | cs => (parseDigits cs).map (fun n => (n : Int))

/-- One span of the rendered text layer of a page: a run of text with its
bounding rectangle. -/
structure Span where
  text : String
  rect : Rect
deriving DecidableEq, Repr

/-- A page's rendered text layer, in layout order. -/
abbrev Page := List Span

/-- Model of `fitz.Page.search_for`: the rectangles, in page order, of the
spans whose text contains the needle. -/
def searchFor (needle : String) (page : Page) : List Rect :=
  (page.filter (fun s => containsSubstr needle s.text)).map (fun s => s.rect)

/-- Model of `page.add_redact_annot(rect)` immediately followed by
`page.apply_redactions()`: every span overlapping `rect` is removed. -/
def applyRedaction (rect : Rect) (page : Page) : Page :=
  page.filter (fun s => !(Rect.intersects s.rect rect))

/-- Bounding rectangle of text inserted at baseline point `p` (the library
takes the bottom-left of the first glyph): a simple fixed-width metric. -/
def insertedRect (p : Point) (t : String) (fontsize : Int) : Rect :=
  ⟨p.x, p.y - fontsize, p.x + fontsize * (t.length : Int), p.y⟩

/-- Model of `page.insert_text(point, text, fontsize, fontname, color)`:
appends a span at the given baseline point. -/
def insertText (page : Page) (p : Point) (t : String) (fontsize : Int) : Page :=
  page ++ [⟨t, insertedRect p t fontsize⟩]

/-- One primitive page mutation performed by the substitution loop, recorded
with all arguments the source passes. -/
inductive Op where
  | redact (rect : Rect)
  | insert (point : Point) (text : String) (fontsize : Int) (fontname : String)
      (color : Int × Int × Int)
deriving DecidableEq, Repr

/-- One entry of the rules file: a YAML mapping read with
`entry.get("replace")` and `entry.get("with")`, either key possibly absent. -/
structure RuleEntry where
  replace : Option String
  with_ : Option String
deriving DecidableEq, Repr

/-- Python string truthiness as used by `if not text or not new_text`:
`None` and the empty string are falsy. -/
def falsy : Option String → Bool
  | none => true
  | some s => s.isEmpty

/-- Body of the inner `for i, rect in enumerate(found)` loop: redact the
rectangle, then insert the rule's search text (`text`, not `new_text`) at
`fitz.Point(rect.x0, rect.y1)` with `fontsize=8`, `fontname="helv"`,
`color=(0, 0, 0)`.  The page and the trace of operations are threaded. -/
def occStep (text : String) (st : Page × List Op) (rect : Rect) : Page × List Op :=
  let pg := insertText (applyRedaction rect st.1) ⟨rect.x0, rect.y1⟩ text 8
  (pg, st.2 ++ [Op.redact rect, Op.insert ⟨rect.x0, rect.y1⟩ text 8 "helv" (0, 0, 0)])

/-- Body of the outer `for entry in self.actions` loop: skip the entry when
either field is falsy, otherwise search once for the find text and fold the
redact/insert step over the occurrences found. -/
def applyRule (entry : RuleEntry) (page : Page) : Page × List Op :=
  match entry.replace, entry.with_ with
  | some text, some new_text =>
      if text.isEmpty || new_text.isEmpty then (page, [])
      else (searchFor text page).foldl (occStep text) (page, [])
  | _, _ => (page, [])

/-- Folding step over rule entries, accumulating the operation trace. -/
def ruleStep (st : Page × List Op) (entry : RuleEntry) : Page × List Op :=
  let res := applyRule entry st.1
  (res.1, st.2 ++ res.2)

/-- The whole substitution loop of `process_document` over one page. -/
def processPage (acts : List RuleEntry) (page : Page) : Page × List Op :=
  acts.foldl ruleStep (page, [])

/-- Error conditions of the spec's taxonomy that the embedded code can
raise. -/
inductive AppError where
  | configurationUnavailable
  | pageSelectionFailed
deriving DecidableEq, Repr

/-- A document as opened by `fitz.open`: its list of pages. -/
structure Doc where
  pages : List Page
deriving DecidableEq, Repr

/-- Model of `fitz.Document.select`: keep exactly the listed page numbers, in
the listed order; any out-of-range page number is an error (the spec's
`PageSelectionFailed`). -/
def Doc.select (d : Doc) (idxs : List Nat) : Except AppError Doc :=
  if idxs.all (fun i => decide (i < d.pages.length)) then
    Except.ok ⟨idxs.filterMap (fun i => d.pages[i]?)⟩
  else
    Except.error AppError.pageSelectionFailed

/-- The local files the program reads: `.token.txt`, `.user_id.txt` and
`.actions.yaml`.  A missing file is `none`; a present rules file either
parses to a list of entries or is malformed (`Except.error`). -/
structure FileSystem where
  tokenFile : Option String
  userIdFile : Option String
  actionsFile : Option (Except String (List RuleEntry))

/-- The `App._token` property: read the token file. -/
def App.token (fs : FileSystem) : Except AppError String :=
  match fs.tokenFile with
  | some s => Except.ok s
  | none => Except.error AppError.configurationUnavailable

/-- The `App._user_id` property: read the user-id file and parse it as an
integer; a missing file or non-integer content is a configuration error. -/
def App.user_id (fs : FileSystem) : Except AppError Int :=
  match fs.userIdFile with
  | some s =>
      match pyInt s with
      | some n => Except.ok n
      | none => Except.error AppError.configurationUnavailable
  | none => Except.error AppError.configurationUnavailable

/-- The `App.actions` property: re-read and parse the rules file at each
call; a missing or malformed file is a configuration error. -/
def App.actions (fs : FileSystem) : Except AppError (List RuleEntry) :=
  match fs.actionsFile with
  | some (Except.ok acts) => Except.ok acts
  | some (Except.error _) => Except.error AppError.configurationUnavailable
  | none => Except.error AppError.configurationUnavailable

/-- The state built by `App.__init__`: the token (read for
`ApplicationBuilder().token(...)`) and the authorized user id (read for the
`filters.User` message filter).  `__init__` reads nothing else. -/
structure AppState where
  token : String
  user_id : Int
deriving DecidableEq, Repr

/-- Model of `App.__init__`: build the application from the token and
register the user filter.  Only the token file and the user-id file are
read; the rules file is not touched at startup. -/
def App.init (fs : FileSystem) : Except AppError AppState := do
  let t ← App.token fs
  let u ← App.user_id fs
  Except.ok ⟨t, u⟩

/-- Model of `App.process_document` on an opened document: select page 0
(dropping every other page), then run every rule of the freshly re-read
rules file over that page, and save a single-page document.  The saved
document and the operation trace are returned. -/
def process_document (fs : FileSystem) (doc : Doc) : Except AppError (Doc × List Op) := do
  let d ← doc.select [0]
  match d.pages with
  | [] => Except.error AppError.pageSelectionFailed
  | page :: _ =>
      let acts ← App.actions fs
      let res := processPage acts page
      Except.ok (⟨[res.1]⟩, res.2)

/-- The alphabet of `random_string`: `string.ascii_lowercase + string.digits`. -/
def alphabet : List Char :=
  (String.append "abcdefghijklmnopqrstuvwxyz" "0123456789").toList

/-- Model of `random_string(length)`: `random.choices(alphabet, k=length)`
is modelled by an arbitrary list of picks into the alphabet; the result is
the corresponding string. -/
def random_string (picks : List (Fin alphabet.length)) : String :=
  String.mk (picks.map (fun i => alphabet.get i))

/-- The stem and suffix of a `pathlib.Path`; `suffix` carries its leading
dot, as in Python (for `doc.pdf` the suffix is `.pdf`). -/
structure PyPath where
  stem : String
  suffix : String
deriving DecidableEq, Repr

/-- The output filename built by `process_document`: the Python
format string interpolating `path.stem`, a dash, the 8-character hash, a
dot, and `path.suffix`. -/
def output_filename (p : PyPath) (hash : String) : String :=
  p.stem ++ "-" ++ hash ++ "." ++ p.suffix

/-- A Telegram document attachment: its file id and optional filename. -/
structure TDocument where
  file_id : String
  file_name : Option String
deriving DecidableEq, Repr

/-- An inbound message that already passed the sender filter. -/
structure TMessage where
  chat_id : Int
  document : Option TDocument
deriving DecidableEq, Repr

/-- The observable effects of one `handler` invocation, in order. -/
inductive HandlerStep where
  | download
  | processDoc
  | sendDocument
deriving DecidableEq, Repr

/-- A Python runtime error the handler can raise. -/
inductive PyError where
  | attributeError
deriving DecidableEq, Repr

/-- Model of `App.handler`: return (no effects) when there is no document
attachment; otherwise dereference `document.file_name` — raising
`AttributeError` when the filename is absent — and proceed to download,
process and reply only when the filename ends with the literal `.pdf`. -/
def handler (msg : TMessage) : Except PyError (List HandlerStep) :=
  match msg.document with
  | none => Except.ok []
  | some d =>
      match d.file_name with
      | none => Except.error PyError.attributeError
      | some name =>
          if endswith name ".pdf" then
            Except.ok [HandlerStep.download, HandlerStep.processDoc, HandlerStep.sendDocument]
          else
            Except.ok []

/-! Helper lemmas shared by the claim theorems. -/

/-- Folding the redact/insert occurrence step appends, for each rectangle in
order, a redaction followed by an insertion of the search text at the
rectangle's bottom-left point. -/
theorem occStep_foldl_ops (t : String) (found : List Rect) :
    ∀ (page : Page) (acc : List Op),
      (found.foldl (occStep t) (page, acc)).2 =
        acc ++ found.flatMap (fun r =>
          [Op.redact r, Op.insert ⟨r.x0, r.y1⟩ t 8 "helv" (0, 0, 0)]) := by
  induction found with
  | nil => intro page acc; simp
  | cons r rs ih =>
      intro page acc
      simp only [List.foldl_cons, List.flatMap_cons, occStep]
      rw [ih]
      simp [List.append_assoc]

/-- Trace of one rule with both fields present and non-empty: one redaction
then one insertion of the find text per occurrence, in found order. -/
theorem applyRule_ops (entry : RuleEntry) (page : Page) (t nt : String)
    (hr : entry.replace = some t) (hw : entry.with_ = some nt)
    (ht : t.isEmpty = false) (hn : nt.isEmpty = false) :
    (applyRule entry page).2 =
      (searchFor t page).flatMap (fun r =>
        [Op.redact r, Op.insert ⟨r.x0, r.y1⟩ t 8 "helv" (0, 0, 0)]) := by
  obtain ⟨er, ew⟩ := entry
  simp only at hr hw
  subst hr; subst hw
  simp only [applyRule, ht, hn, Bool.or_self, Bool.false_eq_true, if_false]
  exact occStep_foldl_ops t (searchFor t page) page []

/-- Selecting page 0 of a non-empty document keeps exactly the first page. -/
theorem select_zero_cons (p : Page) (rest : List Page) :
    Doc.select ⟨p :: rest⟩ [0] = Except.ok ⟨[p]⟩ := by
  simp [Doc.select]

/-- Folding the rule step from an arbitrary accumulator equals processing
from the empty accumulator and prepending it. -/
theorem processPage_foldl_acc (acts : List RuleEntry) :
    ∀ (page : Page) (acc : List Op),
      acts.foldl ruleStep (page, acc) =
        ((processPage acts page).1, acc ++ (processPage acts page).2) := by
  induction acts with
  | nil => intro page acc; simp [processPage]
  | cons e es ih =>
      intro page acc
      simp only [processPage, List.foldl_cons, ruleStep, List.nil_append]
      rw [ih (applyRule e page).1 (acc ++ (applyRule e page).2),
          ih (applyRule e page).1 (applyRule e page).2]
      simp [List.append_assoc]

/-! Claim theorems. -/

/-- C1: for every replacement rule with non-empty find and replacement
fields, the trace of applying the rule is exactly, for each occurrence of
the find text located on the page, a redaction of the occurrence's region
followed by an insertion at that region — and every insertion writes the
rule's find text, so the replacement text is never written into the
document. -/
theorem find_text_reinserted (entry : RuleEntry) (page : Page) (t nt : String)
    (hr : entry.replace = some t) (hw : entry.with_ = some nt)
    (ht : t.isEmpty = false) (hn : nt.isEmpty = false) :
    (applyRule entry page).2 =
      (searchFor t page).flatMap (fun r =>
        [Op.redact r, Op.insert (Rect.bottomLeft r) t 8 "helv" (0, 0, 0)]) ∧
    ∀ op ∈ (applyRule entry page).2, ∀ pt s sz fn c,
      op = Op.insert pt s sz fn c → s = t := by
  have h := applyRule_ops entry page t nt hr hw ht hn
  refine ⟨by simpa [Rect.bottomLeft] using h, ?_⟩
  intro op hop pt s sz fn c heq
  rw [h, List.mem_flatMap] at hop
  obtain ⟨r, _, hmem⟩ := hop
  subst heq
  simp only [List.mem_cons, List.not_mem_nil, or_false] at hmem
  rcases hmem with h1 | h1
  · exact Op.noConfusion h1
  · cases h1; rfl

/-- C1 witness: a concrete rule and page. -/
theorem find_text_reinserted_witness :
    (applyRule ⟨some "Invoice", some "Receipt"⟩
        [⟨"Invoice #42", ⟨10, 20, 50, 30⟩⟩]).2 =
      (searchFor "Invoice" [⟨"Invoice #42", ⟨10, 20, 50, 30⟩⟩]).flatMap (fun r =>
        [Op.redact r, Op.insert (Rect.bottomLeft r) "Invoice" 8 "helv" (0, 0, 0)]) ∧
    ∀ op ∈ (applyRule ⟨some "Invoice", some "Receipt"⟩
        [⟨"Invoice #42", ⟨10, 20, 50, 30⟩⟩]).2, ∀ pt s sz fn c,
      op = Op.insert pt s sz fn c → s = "Invoice" :=
  find_text_reinserted ⟨some "Invoice", some "Receipt"⟩
    [⟨"Invoice #42", ⟨10, 20, 50, 30⟩⟩] "Invoice" "Receipt" rfl rfl rfl rfl

/-- C3 counterexample: for the rule (find "Invoice", replacement "Receipt")
on a page whose only span covers the rectangle (10, 20, 50, 30), the
insertion recorded by the engine is at the point (10, 30) — the bottom-left
corner (x0, y1) of the vacated region — which is not the region's top-left
corner (10, 20) named by the claim. -/
theorem insertion_not_at_top_left :
    (applyRule ⟨some "Invoice", some "Receipt"⟩
        [⟨"Invoice #42", ⟨10, 20, 50, 30⟩⟩]).2 =
      [Op.redact ⟨10, 20, 50, 30⟩,
       Op.insert ⟨10, 30⟩ "Invoice" 8 "helv" (0, 0, 0)] ∧
    Rect.topLeft ⟨10, 20, 50, 30⟩ = ⟨10, 20⟩ ∧
    (⟨10, 30⟩ : Point) ≠ ⟨10, 20⟩ := by
  refine ⟨by decide, rfl, by decide⟩

/-- C3 amended: every insertion recorded by a rule application is placed at
the bottom-left corner (x0, y1) of one of the occurrence rectangles, with
fixed font size 8, the fixed sans-serif face "helv" (Helvetica), and black
fill (0, 0, 0). -/
theorem insertion_point_and_style (entry : RuleEntry) (page : Page) (t nt : String)
    (hr : entry.replace = some t) (hw : entry.with_ = some nt)
    (ht : t.isEmpty = false) (hn : nt.isEmpty = false) :
    ∀ op ∈ (applyRule entry page).2, ∀ pt s sz fn c,
      op = Op.insert pt s sz fn c →
        sz = 8 ∧ fn = "helv" ∧ c = (0, 0, 0) ∧
        ∃ r ∈ searchFor t page, pt = Rect.bottomLeft r := by
  have h := applyRule_ops entry page t nt hr hw ht hn
  intro op hop pt s sz fn c heq
  rw [h, List.mem_flatMap] at hop
  obtain ⟨r, hrmem, hmem⟩ := hop
  subst heq
  simp only [List.mem_cons, List.not_mem_nil, or_false] at hmem
  rcases hmem with h1 | h1
  · exact Op.noConfusion h1
  · cases h1
    exact ⟨rfl, rfl, rfl, r, hrmem, rfl⟩

/-- C3 amended witness: the one insertion performed on a concrete page is
styled as stated and sits at the bottom-left corner of the found region. -/
theorem insertion_point_and_style_witness :
    (8 : Int) = 8 ∧ "helv" = "helv" ∧ ((0, 0, 0) : Int × Int × Int) = (0, 0, 0) ∧
    ∃ r ∈ searchFor "Invoice" [⟨"Invoice #42", ⟨10, 20, 50, 30⟩⟩],
      (⟨10, 30⟩ : Point) = Rect.bottomLeft r :=
  insertion_point_and_style ⟨some "Invoice", some "Receipt"⟩
    [⟨"Invoice #42", ⟨10, 20, 50, 30⟩⟩] "Invoice" "Receipt" rfl rfl rfl rfl
    (Op.insert ⟨10, 30⟩ "Invoice" 8 "helv" (0, 0, 0)) (by decide)
    ⟨10, 30⟩ "Invoice" 8 "helv" (0, 0, 0) rfl

/-- C7: a rule whose find field or replacement field is missing or empty is
skipped: it leaves the page unchanged, records no operation, and (being a
total function) raises no error. -/
theorem empty_rule_skipped (entry : RuleEntry) (page : Page)
    (h : falsy entry.replace = true ∨ falsy entry.with_ = true) :
    applyRule entry page = (page, []) := by
  obtain ⟨er, ew⟩ := entry
  rcases h with h | h <;> cases er <;> cases ew <;>
    simp_all [applyRule, falsy]

/-- C7 witness: a rule with an empty find field on a non-empty page. -/
theorem empty_rule_skipped_witness :
    applyRule ⟨some "", some "Receipt"⟩ [⟨"Invoice #42", ⟨10, 20, 50, 30⟩⟩] =
      ([⟨"Invoice #42", ⟨10, 20, 50, 30⟩⟩], []) :=
  empty_rule_skipped ⟨some "", some "Receipt"⟩
    [⟨"Invoice #42", ⟨10, 20, 50, 30⟩⟩] (Or.inl rfl)

/-- C9: rules are applied in listed order: processing a concatenated rule
list first processes the front rules on the given page, and the remaining
rules run — searches included — on the page state produced by all the
front rules' redactions and insertions, with the traces concatenated in
order. -/
theorem rules_apply_in_order_on_updated_page (l1 l2 : List RuleEntry) (page : Page) :
    processPage (l1 ++ l2) page =
      ((processPage l2 (processPage l1 page).1).1,
       (processPage l1 page).2 ++ (processPage l2 (processPage l1 page).1).2) := by
  have h := processPage_foldl_acc l2 (processPage l1 page).1 (processPage l1 page).2
  calc processPage (l1 ++ l2) page
      = List.foldl ruleStep (processPage l1 page) l2 := by
        simp [processPage, List.foldl_append]
    _ = _ := h

/-- C2 counterexample: with the token file and the user-id file present but
the rules file missing, `App.__init__` succeeds — the process starts — even
though reading the rules would fail with the configuration error; so a
missing rules file is not fatal at startup. -/
theorem startup_succeeds_without_rules_file :
    App.init ⟨some "tok", some "42", none⟩ = Except.ok ⟨"tok", 42⟩ ∧
    App.actions ⟨some "tok", some "42", none⟩ =
      Except.error AppError.configurationUnavailable :=
  ⟨rfl, rfl⟩

/-- C2 amended: a missing or malformed rules file surfaces as a
ConfigurationUnavailable failure per message, when document processing
re-reads the rules file — and startup is unaffected, since `App.__init__`
never reads the rules file. -/
theorem rules_file_error_is_per_message (fs : FileSystem) (doc : Doc)
    (p : Page) (rest : List Page)
    (hbad : fs.actionsFile = none ∨ ∃ e, fs.actionsFile = some (Except.error e))
    (hd : doc.pages = p :: rest) :
    process_document fs doc = Except.error AppError.configurationUnavailable ∧
    ∀ tf uf af af', App.init ⟨tf, uf, af⟩ = App.init ⟨tf, uf, af'⟩ := by
  obtain ⟨pgs⟩ := doc
  obtain ⟨tf, uf, af⟩ := fs
  dsimp only at hd hbad
  subst hd
  refine ⟨?_, fun _ _ _ _ => rfl⟩
  rcases hbad with h | ⟨e, h⟩ <;> subst h <;>
    · simp only [process_document]
      rw [select_zero_cons]
      rfl

/-- C2 amended witness: a one-page document and a filesystem lacking the
rules file. -/
theorem rules_file_error_is_per_message_witness :
    process_document ⟨some "tok", some "42", none⟩ ⟨[[]]⟩ =
      Except.error AppError.configurationUnavailable ∧
    ∀ tf uf af af', App.init ⟨tf, uf, af⟩ = App.init ⟨tf, uf, af'⟩ :=
  rules_file_error_is_per_message ⟨some "tok", some "42", none⟩ ⟨[[]]⟩ [] []
    (Or.inl rfl) rfl

/-- Every character of the random-string alphabet is a lowercase letter or a
digit. -/
theorem alphabet_chars_lower_or_digit :
    ∀ c ∈ alphabet, c.isLower = true ∨ c.isDigit = true := by decide

/-- C4: the saved filename is built from the original stem followed by a
dash, the random hash, a dot and the original suffix; for any 8 picks the
hash has exactly 8 characters, each a lowercase letter or a digit. -/
theorem output_name_random_suffix (p : PyPath) (picks : List (Fin alphabet.length))
    (h : picks.length = 8) :
    output_filename p (random_string picks) =
      p.stem ++ "-" ++ random_string picks ++ "." ++ p.suffix ∧
    (random_string picks).length = 8 ∧
    ∀ c ∈ (random_string picks).toList, c.isLower = true ∨ c.isDigit = true := by
  refine ⟨rfl, ?_, ?_⟩
  · show (picks.map (fun i => alphabet.get i)).length = 8
    simp [h]
  · intro c hc
    have hc' : c ∈ picks.map (fun i => alphabet.get i) := hc
    rw [List.mem_map] at hc'
    obtain ⟨i, _, rfl⟩ := hc'
    exact alphabet_chars_lower_or_digit _ (List.get_mem alphabet i.1 i.2)

/-- C4 witness: concrete picks of length 8 on the path stem `doc` with
suffix `.pdf`. -/
theorem output_name_random_suffix_witness :
    output_filename ⟨"doc", ".pdf"⟩
        (random_string (List.replicate 8 ⟨0, by decide⟩)) =
      "doc" ++ "-" ++ random_string (List.replicate 8 ⟨0, by decide⟩) ++
        "." ++ ".pdf" ∧
    (random_string (List.replicate 8 ⟨0, by decide⟩)).length = 8 ∧
    ∀ c ∈ (random_string (List.replicate 8 ⟨0, by decide⟩)).toList,
      c.isLower = true ∨ c.isDigit = true :=
  output_name_random_suffix ⟨"doc", ".pdf"⟩
    (List.replicate 8 ⟨0, by decide⟩) (by decide)

/-- C5: on a filesystem whose rules file parses, processing a document with
at least one page succeeds, and the saved document consists of exactly one
page: the result of running all rules over page index 0 of the input; every
other page is dropped. -/
theorem output_single_page (fs : FileSystem) (acts : List RuleEntry) (doc : Doc)
    (p : Page) (rest : List Page)
    (ha : fs.actionsFile = some (Except.ok acts)) (hd : doc.pages = p :: rest) :
    process_document fs doc =
      Except.ok (⟨[(processPage acts p).1]⟩, (processPage acts p).2) ∧
    (Doc.mk [(processPage acts p).1]).pages.length = 1 := by
  obtain ⟨pgs⟩ := doc
  obtain ⟨tf, uf, af⟩ := fs
  dsimp only at hd ha
  subst hd
  subst ha
  refine ⟨?_, rfl⟩
  simp only [process_document]
  rw [select_zero_cons]
  rfl

/-- C5 witness: a two-page document; the second page is dropped. -/
theorem output_single_page_witness :
    process_document ⟨some "tok", some "42", some (Except.ok [])⟩
        ⟨[[], [⟨"p2", ⟨0, 0, 1, 1⟩⟩]]⟩ =
      Except.ok (⟨[(processPage [] []).1]⟩, (processPage [] []).2) ∧
    (Doc.mk [(processPage [] []).1]).pages.length = 1 :=
  output_single_page ⟨some "tok", some "42", some (Except.ok [])⟩ []
    ⟨[[], [⟨"p2", ⟨0, 0, 1, 1⟩⟩]]⟩ [] [[⟨"p2", ⟨0, 0, 1, 1⟩⟩]] rfl rfl

/-- C6: processing a document with zero pages fails with PageSelectionFailed
— selecting page index 0 is invalid — and, the result being an error, no
output document is produced; this holds for every filesystem, since page
selection happens before the rules file is read. -/
theorem empty_doc_page_selection_fails (fs : FileSystem) (doc : Doc)
    (h : doc.pages = []) :
    process_document fs doc = Except.error AppError.pageSelectionFailed := by
  obtain ⟨pgs⟩ := doc
  dsimp only at h
  subst h
  rfl

/-- C6 witness: the empty document. -/
theorem empty_doc_page_selection_fails_witness :
    process_document ⟨some "tok", some "42", some (Except.ok [])⟩ ⟨[]⟩ =
      Except.error AppError.pageSelectionFailed :=
  empty_doc_page_selection_fails ⟨some "tok", some "42", some (Except.ok [])⟩
    ⟨[]⟩ rfl

/-- C8: a message with no document attachment, or whose attachment's
filename does not end in the case-sensitive literal `.pdf`, makes the
handler return normally with an empty effect trace: no download, no
processing, no reply, no error. -/
theorem non_pdf_attachment_noop (msg : TMessage)
    (h : msg.document = none ∨ ∃ d name, msg.document = some d ∧
      d.file_name = some name ∧ endswith name ".pdf" = false) :
    handler msg = Except.ok [] := by
  rcases h with h | ⟨d, name, hd, hn, he⟩
  · simp [handler, h]
  · simp [handler, hd, hn, he]

/-- C8 witness: an attachment named `a.docx`. -/
theorem non_pdf_attachment_noop_witness :
    handler ⟨5, some ⟨"fid", some "a.docx"⟩⟩ = Except.ok [] :=
  non_pdf_attachment_noop ⟨5, some ⟨"fid", some "a.docx"⟩⟩
    (Or.inr ⟨⟨"fid", some "a.docx"⟩, "a.docx", rfl, rfl, by decide⟩)

/-- C10: a document attachment without a filename makes the handler raise
(dereferencing the absent filename for the `.pdf` suffix check) instead of
returning as a no-op. -/
theorem missing_filename_raises (msg : TMessage) (d : TDocument)
    (h1 : msg.document = some d) (h2 : d.file_name = none) :
    handler msg = Except.error PyError.attributeError := by
  simp [handler, h1, h2]

/-- C10 witness: an attachment with no filename. -/
theorem missing_filename_raises_witness :
    handler ⟨5, some ⟨"fid", none⟩⟩ = Except.error PyError.attributeError :=
  missing_filename_raises ⟨5, some ⟨"fid", none⟩⟩ ⟨"fid", none⟩ rfl rfl

end GoldenWind
